import Mathlib

/-!
# Verification of the SAFE-RO raster core

A shallow embedding of `src/safe_ro/core/safe_ro_core.py`: the band loader
(`RasterBand.load`), the NDVI computer (`NDVIProcessor.compute_ndvi`) and the
flood-mask detector (`Sentinel1FloodDetector.detect`), together with proofs of
the specified properties.

Floating-point samples are modelled as either a finite rational or NaN
(`Val`); IEEE comparison semantics (`NaN < x` is false) and NaN propagation
through arithmetic are reproduced.  Grids are a shape together with a pixel
function; a raster filesystem maps a path to an openable raster file or to
nothing (an unreadable / missing file, whose open raises in Python and is
caught by the loader).
-/

namespace SafeRo

/-- A floating-point sample: a finite rational value, or NaN. -/
inductive Val where
  | fin : ℚ → Val
  | nan : Val
deriving DecidableEq, Repr

/-- IEEE-style addition: NaN propagates. -/
def Val.add : Val → Val → Val
  | .fin a, .fin b => .fin (a + b)
  | _, _ => .nan

/-- IEEE-style subtraction: NaN propagates. -/
def Val.sub : Val → Val → Val
  | .fin a, .fin b => .fin (a - b)
  | _, _ => .nan

/-- IEEE-style division: NaN propagates; division by exact zero is not a
finite value (modelled as NaN; the NDVI pipeline replaces zero denominators
before dividing, so this branch is never taken there). -/
def Val.div : Val → Val → Val
  | .fin a, .fin b => if b = 0 then .nan else .fin (a / b)
  | _, _ => .nan

/-- IEEE-style strict comparison: any comparison with NaN is false. -/
def Val.lt : Val → Val → Bool
  | .fin a, .fin b => decide (a < b)
  | _, _ => false

/-- Model of `np.clip(x, lo, hi)`: NaN stays NaN, a finite value is clamped. -/
def Val.clip (lo hi : ℚ) : Val → Val
  | .fin a => .fin (max lo (min a hi))
  | .nan => .nan

/-- Whether a sample is a finite value. -/
def Val.isFinite : Val → Bool
  | .fin _ => true
  | .nan => false

/-- The finite value carried by a sample, if any. -/
def Val.toQ : Val → Option ℚ
  | .fin a => some a
  | .nan => none

/-- A 2-D array of samples: a shape `(rows, cols)` and a pixel function
(row-major indexing, `pix i j` is row `i`, column `j`). -/
structure Grid where
  rows : Nat
  cols : Nat
  pix : Nat → Nat → Val

/-- The numpy `.shape` of a grid. -/
def Grid.shape (g : Grid) : Nat × Nat := (g.rows, g.cols)

/-- Row-major flattening of the in-range pixels, as numpy reductions see it. -/
def Grid.flatten (g : Grid) : List Val :=
  (List.range g.rows).flatMap fun i => (List.range g.cols).map fun j => g.pix i j

/-- Element-wise combination of two same-shaped arrays (shape taken from the
first operand, as for numpy arithmetic on equal shapes). -/
def Grid.map2 (f : Val → Val → Val) (g h : Grid) : Grid :=
  ⟨g.rows, g.cols, fun i j => f (g.pix i j) (h.pix i j)⟩

/-- Element-wise application of a function, as numpy ufuncs / fancy-indexing
assignment do. -/
def Grid.emap (f : Val → Val) (g : Grid) : Grid :=
  ⟨g.rows, g.cols, fun i j => f (g.pix i j)⟩

/-- Georeferenced bounding box `(left, bottom, right, top)` from the raster's
metadata. -/
structure Bounds where
  left : ℚ
  bottom : ℚ
  right : ℚ
  top : ℚ
deriving DecidableEq, Repr

/-- An openable single-band raster file: its dimensions, its band data and
its georeferenced bounds. -/
structure RasterFile where
  height : Nat
  width : Nat
  pix : Nat → Nat → Val
  bounds : Bounds

/-- The raster filesystem: a path either opens to a raster file, or fails to
open/decode (`none`), in which case `rasterio.open` raises. -/
def Fs := String → Option RasterFile

/-- Model of `src.read(1, out_shape=..., resampling=bilinear)`: reading the first band,
optionally resampled to an explicit shape.  The external library's resampling
is modelled as index sampling from the source band (each output pixel is drawn
from a source pixel); with the native shape this is the identity read. -/
def rasterRead (f : RasterFile) : Option (Nat × Nat) → Grid
  | none => ⟨f.height, f.width, f.pix⟩
  | some (h, w) => ⟨h, w, fun i j => f.pix (i * f.height / h) (j * f.width / w)⟩

/-- The successful body of `RasterBand.load`: read band 1 of an open raster,
decimated to `(height // factor, width // factor)` when both quotients are
positive, at native resolution otherwise (the code passes `out_shape=None`
when either quotient is zero). -/
def loadGrid (src : RasterFile) (downsample_factor : Nat) : Grid :=
  let new_h := src.height / downsample_factor
  let new_w := src.width / downsample_factor
  rasterRead src (if 0 < new_h ∧ 0 < new_w then some (new_h, new_w) else none)

/-- The loader `RasterBand.load`: open the raster at `path`; on any failure return `None`
(the exception is caught and logged); otherwise read the first band via
`loadGrid`. -/
def RasterBand.load (fs : Fs) (path : String) (downsample_factor : Nat) :
    Option Grid :=
  match fs path with
  | none => none
  | some src => some (loadGrid src downsample_factor)

/-- Model of `cv2.resize(g, (w, h))`: returns an `h × w` array resampled from `g`.
The external library's interpolation is modelled as index sampling from the
source array. -/
def cv2resize (g : Grid) (w h : Nat) : Grid :=
  ⟨h, w, fun i j => g.pix (i * g.rows / h) (j * g.cols / w)⟩

/-- The shape-reconciliation step of `compute_ndvi`: if the two grids differ
in shape, resize both to the element-wise maximum of the two shapes. -/
def reconcile (red nir : Grid) : Grid × Grid :=
  if red.shape ≠ nir.shape then
    let target : Nat × Nat := (max red.rows nir.rows, max red.cols nir.cols)
    (cv2resize red target.2 target.1, cv2resize nir target.2 target.1)
  else (red, nir)

/-- The epsilon correction `denom[denom == 0] = 1e-6`. -/
def fixZero (v : Val) : Val :=
  if v = Val.fin 0 then Val.fin (1 / 1000000) else v

/-- The arithmetic body of `compute_ndvi` on two successfully loaded grids:
reconcile shapes, form `denom = nir + red`, apply the epsilon correction,
compute `(nir - red) / denom` and clip to `[-1, 1]`. -/
def ndviOf (red0 nir0 : Grid) : Grid :=
  let rn := reconcile red0 nir0
  let denom := (Grid.map2 Val.add rn.2 rn.1).emap fixZero
  (Grid.map2 Val.div (Grid.map2 Val.sub rn.2 rn.1) denom).emap (Val.clip (-1) 1)

/-- The index computer `NDVIProcessor.compute_ndvi`: load RED and NIR (no downsampling); if
either load fails return `(None, None)`; otherwise compute the clipped NDVI
grid via `ndviOf` and return it with the RED file's bounds (obtained by
re-opening the RED path, which succeeds since its load did). -/
def NDVIProcessor.compute_ndvi (fs : Fs) (red_path nir_path : String) :
    Option Grid × Option Bounds :=
  match RasterBand.load fs red_path 1, RasterBand.load fs nir_path 1 with
  | some red0, some nir0 =>
    match fs red_path with
    | some src => (some (ndviOf red0 nir0), some src.bounds)
    | none => (none, none)
  | _, _ => (none, none)

/-- Insertion into a sorted list of rationals (ascending). -/
def insertSorted (x : ℚ) : List ℚ → List ℚ
  | [] => [x]
  | y :: ys => if x ≤ y then x :: y :: ys else y :: insertSorted x ys

/-- Ascending sort of a list of rationals, as `np.sort` on finite data. -/
def sortQ : List ℚ → List ℚ
  | [] => []
  | x :: xs => insertSorted x (sortQ xs)

/-- The linear-interpolation quantile of an ascending-sorted list: the value at
virtual index `q/100 * (n-1)`, interpolating between the two bracketing
entries (numpy's default `linear` method). -/
def quantileSorted (xs : List ℚ) (q : ℚ) : Val :=
  match xs with
  | [] => Val.nan
  | _ :: _ =>
    let n := xs.length
    let v : ℚ := q * ((n : ℚ) - 1) / 100
    let k : Nat := ⌊v⌋₊
    let x0 := xs.getD k 0
    let x1 := xs.getD (min (k + 1) (n - 1)) 0
    Val.fin (x0 + (v - (k : ℚ)) * (x1 - x0))

/-- The `q`-th percentile of the finite values of a list of samples
(the spec's "percentile of all finite values"). -/
def finitePercentile (a : List Val) (q : ℚ) : Val :=
  quantileSorted (sortQ (a.filterMap Val.toQ)) q

/-- Model of `np.percentile(a, q)`: NaN anywhere in the data propagates to a NaN
result; on NaN-free data, the linear-interpolation percentile of the sorted
values. -/
def npPercentile (a : List Val) (q : ℚ) : Val :=
  if Val.nan ∈ a then Val.nan else finitePercentile a q

/-- A binary mask: a `uint8` array, as produced by
`(data < threshold).astype(np.uint8)`. -/
structure Mask where
  rows : Nat
  cols : Nat
  pix : Nat → Nat → Nat

/-- The comparison `(data < threshold).astype(np.uint8)`: 1 where the sample is strictly
below the threshold (false for NaN on either side), 0 elsewhere. -/
def thresholdMask (data : Grid) (t : Val) : Mask :=
  ⟨data.rows, data.cols, fun i j => if Val.lt (data.pix i j) t then 1 else 0⟩

/-- The classification body of `detect` on a successfully loaded grid: take
the explicit threshold when one is supplied, otherwise
`np.percentile(data, percentile)`; threshold the grid. -/
def maskOf (data : Grid) (threshold : Option Val) (percentile : ℚ) : Mask :=
  thresholdMask data
    (match threshold with
      | some t => t
      | none => npPercentile data.flatten percentile)

/-- The detector `Sentinel1FloodDetector.detect`: load the band (no downsampling); on load
failure return `(None, None)`; otherwise classify via `maskOf` (the default
percentile at the call boundary is 20.0) and return the binary mask with the
radar file's bounds (obtained by re-opening the path, which succeeds since
the load did). -/
def Sentinel1FloodDetector.detect (fs : Fs) (path : String)
    (threshold : Option Val) (percentile : ℚ) : Option Mask × Option Bounds :=
  match RasterBand.load fs path 1 with
  | none => (none, none)
  | some data =>
    match fs path with
    | some src => (some (maskOf data threshold percentile), some src.bounds)
    | none => (none, none)

/-! ## Concrete rasters used to exhibit satisfiability and counterexamples -/

/-- A fixed bounding box for the demonstration rasters. -/
def demoBounds : Bounds := ⟨0, 0, 10, 10⟩

/-- A 2×2 raster holding the constant 1. -/
def redFile : RasterFile := ⟨2, 2, fun _ _ => .fin 1, demoBounds⟩

/-- A 2×2 raster holding the constant 3. -/
def nirFile : RasterFile := ⟨2, 2, fun _ _ => .fin 3, demoBounds⟩

/-- A 1×10 raster whose pixel at column `j` is `j`. -/
def wideFile : RasterFile := ⟨1, 10, fun _ j => .fin (j : ℚ), demoBounds⟩

/-- A 3×2 raster whose pixel at `(i, j)` is `i + j`. -/
def tallFile : RasterFile := ⟨3, 2, fun i j => .fin ((i : ℚ) + (j : ℚ)), demoBounds⟩

/-- A 1×3 raster holding `[NaN, 0, 10]`. -/
def nanFile : RasterFile :=
  ⟨1, 3, fun _ j => if j = 0 then .nan else if j = 1 then .fin 0 else .fin 10,
    demoBounds⟩

/-- A small filesystem exposing the demonstration rasters; every other path
fails to open. -/
def demoFs : Fs := fun p =>
  if p = "red" then some redFile
  else if p = "nir" then some nirFile
  else if p = "wide" then some wideFile
  else if p = "tall" then some tallFile
  else if p = "nan" then some nanFile
  else none

/-! ## Reduction lemmas for the three operations -/

lemma load_some (fs : Fs) (p : String) (d : Nat) (src : RasterFile)
    (h : fs p = some src) : RasterBand.load fs p d = some (loadGrid src d) := by
  unfold RasterBand.load
  rw [h]

lemma load_none (fs : Fs) (p : String) (d : Nat) (h : fs p = none) :
    RasterBand.load fs p d = none := by
  unfold RasterBand.load
  rw [h]

lemma load_open {fs : Fs} {p : String} {d : Nat} {g : Grid}
    (h : RasterBand.load fs p d = some g) :
    ∃ src, fs p = some src ∧ g = loadGrid src d := by
  unfold RasterBand.load at h
  cases hf : fs p with
  | none => rw [hf] at h; exact absurd h (by simp)
  | some src =>
    rw [hf] at h
    exact ⟨src, rfl, (Option.some_inj.mp h).symm⟩

lemma compute_ndvi_some (fs : Fs) (red_path nir_path : String)
    (fr fn : RasterFile) (hr : fs red_path = some fr) (hn : fs nir_path = some fn) :
    NDVIProcessor.compute_ndvi fs red_path nir_path =
      (some (ndviOf (loadGrid fr 1) (loadGrid fn 1)), some fr.bounds) := by
  unfold NDVIProcessor.compute_ndvi
  rw [load_some fs red_path 1 fr hr, load_some fs nir_path 1 fn hn, hr]

lemma detect_some (fs : Fs) (p : String) (src : RasterFile) (t : Option Val)
    (q : ℚ) (h : fs p = some src) :
    Sentinel1FloodDetector.detect fs p t q =
      (some (maskOf (loadGrid src 1) t q), some src.bounds) := by
  unfold Sentinel1FloodDetector.detect
  rw [load_some fs p 1 src h, h]

/-! ## C5: load failures yield a null pair, never an exception -/

/-- C5: for every path whose raster cannot be opened or decoded the public
operations signal failure with a null pair instead of raising:
`compute_ndvi` returns `(None, None)` when either band load fails, and
`detect` returns `(None, None)` when its band load fails. -/
theorem load_failure_null_result (fs : Fs) (red_path nir_path path : String)
    (t : Option Val) (q : ℚ)
    (h1 : RasterBand.load fs red_path 1 = none ∨
          RasterBand.load fs nir_path 1 = none)
    (h2 : RasterBand.load fs path 1 = none) :
    NDVIProcessor.compute_ndvi fs red_path nir_path = (none, none) ∧
    Sentinel1FloodDetector.detect fs path t q = (none, none) := by
  constructor
  · rcases h1 with h | h
    · simp [NDVIProcessor.compute_ndvi, h]
    · cases hx : RasterBand.load fs red_path 1 <;>
        simp [NDVIProcessor.compute_ndvi, hx, h]
  · simp [Sentinel1FloodDetector.detect, h2]

/-- Witness for C5 at a concrete filesystem: the path `"zzz"` does not open,
and both operations return the null pair there. -/
theorem load_failure_null_result_witness :
    (RasterBand.load demoFs "zzz" 1 = none ∨
     RasterBand.load demoFs "nir" 1 = none) ∧
    RasterBand.load demoFs "zzz" 1 = none ∧
    NDVIProcessor.compute_ndvi demoFs "zzz" "nir" = (none, none) ∧
    Sentinel1FloodDetector.detect demoFs "zzz" none 20 = (none, none) := by
  refine ⟨Or.inl rfl, rfl, ?_⟩
  exact load_failure_null_result demoFs "zzz" "nir" "zzz" none 20 (Or.inl rfl) rfl

/-! ## C9: bounds always come from the fixed reference input -/

/-- C9: on every successful invocation the returned bounding box is exactly
the raster metadata of the fixed reference input — the RED file for
`compute_ndvi`, the radar file for `detect` — never recomputed. -/
theorem bounds_from_reference_input (fs : Fs) (red_path nir_path path : String)
    (fr fn fp : RasterFile) (t : Option Val) (q : ℚ)
    (hr : fs red_path = some fr) (hn : fs nir_path = some fn)
    (hp : fs path = some fp) :
    (NDVIProcessor.compute_ndvi fs red_path nir_path).2 = some fr.bounds ∧
    (Sentinel1FloodDetector.detect fs path t q).2 = some fp.bounds := by
  rw [compute_ndvi_some fs red_path nir_path fr fn hr hn,
    detect_some fs path fp t q hp]
  exact ⟨rfl, rfl⟩

/-- Witness for C9 at the demonstration filesystem. -/
theorem bounds_from_reference_input_witness :
    demoFs "red" = some redFile ∧ demoFs "nir" = some nirFile ∧
    demoFs "wide" = some wideFile ∧
    (NDVIProcessor.compute_ndvi demoFs "red" "nir").2 = some redFile.bounds ∧
    (Sentinel1FloodDetector.detect demoFs "wide" none 20).2 = some wideFile.bounds := by
  refine ⟨rfl, rfl, rfl, ?_⟩
  exact bounds_from_reference_input demoFs "red" "nir" "wide" redFile nirFile
    wideFile none 20 rfl rfl rfl

/-! ## C3 and C10: the flood mask is binary and uses strict comparison -/

lemma lt_nan_left (t : Val) : Val.lt .nan t = false := by
  cases t <;> rfl

lemma maskOf_pix (data : Grid) (t : Option Val) (q : ℚ) (i j : Nat) :
    (maskOf data t q).pix i j =
      if Val.lt (data.pix i j)
          (match t with
            | some t0 => t0
            | none => npPercentile data.flatten q) then 1 else 0 := rfl

/-- C3: with an explicit threshold, `detect` returns a `{0, 1}`-valued grid
whose pixel at `(i, j)` is 1 exactly when the input pixel at `(i, j)` is
strictly less than the threshold (IEEE strict comparison). -/
theorem explicit_threshold_mask (fs : Fs) (path : String) (data : Grid)
    (t : Val) (q : ℚ) (h : RasterBand.load fs path 1 = some data) :
    ∃ m b, Sentinel1FloodDetector.detect fs path (some t) q = (some m, some b) ∧
      m.rows = data.rows ∧ m.cols = data.cols ∧
      ∀ i j, i < m.rows → j < m.cols →
        (m.pix i j = 0 ∨ m.pix i j = 1) ∧
        (m.pix i j = 1 ↔ Val.lt (data.pix i j) t = true) := by
  obtain ⟨src, hsrc, hdata⟩ := load_open h
  subst hdata
  refine ⟨maskOf (loadGrid src 1) (some t) q, src.bounds,
    detect_some fs path src (some t) q hsrc, rfl, rfl, ?_⟩
  intro i j _ _
  cases hlt : Val.lt ((loadGrid src 1).pix i j) t <;>
    simp [maskOf, thresholdMask, hlt]

/-- Witness for C3: the 1×10 demonstration raster with threshold 5. -/
theorem explicit_threshold_mask_witness :
    RasterBand.load demoFs "wide" 1 = some (loadGrid wideFile 1) ∧
    (∃ m b, Sentinel1FloodDetector.detect demoFs "wide" (some (.fin 5)) 20 =
        (some m, some b) ∧
      m.rows = (loadGrid wideFile 1).rows ∧ m.cols = (loadGrid wideFile 1).cols ∧
      ∀ i j, i < m.rows → j < m.cols →
        (m.pix i j = 0 ∨ m.pix i j = 1) ∧
        (m.pix i j = 1 ↔ Val.lt ((loadGrid wideFile 1).pix i j) (.fin 5) = true)) :=
  ⟨rfl, explicit_threshold_mask demoFs "wide" (loadGrid wideFile 1) (.fin 5) 20 rfl⟩

/-- C10: for every loaded radar grid — NaN pixels included — and any
threshold mode, the mask holds only the values 0 and 1, and every NaN input
pixel is classified 0 because strict comparison with NaN is false. -/
theorem mask_binary_nan_zero (fs : Fs) (path : String) (data : Grid)
    (threshold : Option Val) (q : ℚ)
    (h : RasterBand.load fs path 1 = some data) :
    ∃ m b, Sentinel1FloodDetector.detect fs path threshold q = (some m, some b) ∧
      ∀ i j, i < m.rows → j < m.cols →
        (m.pix i j = 0 ∨ m.pix i j = 1) ∧
        (data.pix i j = .nan → m.pix i j = 0) := by
  obtain ⟨src, hsrc, hdata⟩ := load_open h
  subst hdata
  refine ⟨maskOf (loadGrid src 1) threshold q, src.bounds,
    detect_some fs path src threshold q hsrc, ?_⟩
  intro i j _ _
  constructor
  · rw [maskOf_pix]
    split
    · exact Or.inr rfl
    · exact Or.inl rfl
  · intro hnan
    rw [maskOf_pix, hnan, lt_nan_left]
    rfl

/-- Witness for C10: the demonstration raster holding `[NaN, 0, 10]`, with
the percentile-derived threshold. -/
theorem mask_binary_nan_zero_witness :
    RasterBand.load demoFs "nan" 1 = some (loadGrid nanFile 1) ∧
    (∃ m b, Sentinel1FloodDetector.detect demoFs "nan" none 20 =
        (some m, some b) ∧
      ∀ i j, i < m.rows → j < m.cols →
        (m.pix i j = 0 ∨ m.pix i j = 1) ∧
        ((loadGrid nanFile 1).pix i j = .nan → m.pix i j = 0)) :=
  ⟨rfl, mask_binary_nan_zero demoFs "nan" (loadGrid nanFile 1) none 20 rfl⟩

/-! ## C7: the shape contract of the band loader -/

/-- C7 (amended): `load` returns the native shape `(height, width)` with
factor 1; with a factor greater than 1 it returns
`(height // factor, width // factor)` provided both quotients are positive;
when either quotient is zero the band is read at native resolution instead. -/
theorem load_shape (fs : Fs) (p : String) (f : RasterFile)
    (h : fs p = some f) (d : Nat) :
    (RasterBand.load fs p 1).map Grid.shape = some (f.height, f.width) ∧
    (1 < d → 0 < f.height / d → 0 < f.width / d →
      (RasterBand.load fs p d).map Grid.shape =
        some (f.height / d, f.width / d)) ∧
    (¬(0 < f.height / d ∧ 0 < f.width / d) →
      (RasterBand.load fs p d).map Grid.shape = some (f.height, f.width)) := by
  refine ⟨?_, ?_, ?_⟩
  · rw [load_some fs p 1 f h]
    by_cases hc : 0 < f.height ∧ 0 < f.width <;>
      simp [loadGrid, hc, rasterRead, Grid.shape, Nat.div_one]
  · intro _ hh hw
    rw [load_some fs p d f h]
    have hc : 0 < f.height / d ∧ 0 < f.width / d := ⟨hh, hw⟩
    simp [loadGrid, hc, rasterRead, Grid.shape]
  · intro hc
    rw [load_some fs p d f h]
    simp [loadGrid, hc, rasterRead, Grid.shape]

/-- Counterexample to C7 as stated: a valid 1×10 raster downsampled by
factor 2 is read at native resolution `(1, 10)`, because `1 // 2 = 0` makes
the loader skip the decimated read; the claimed shape
`(1 // 2, 10 // 2) = (0, 5)` is not produced. -/
theorem load_shape_cex :
    (RasterBand.load demoFs "wide" 2).map Grid.shape = some (1, 10) ∧
    (RasterBand.load demoFs "wide" 2).map Grid.shape ≠ some (1 / 2, 10 / 2) := by
  exact ⟨rfl, by decide⟩

/-- Witness for C7 (amended) at the 2×2 demonstration raster with factor 2. -/
theorem load_shape_witness :
    demoFs "red" = some redFile ∧
    ((RasterBand.load demoFs "red" 1).map Grid.shape =
        some (redFile.height, redFile.width) ∧
      (1 < 2 → 0 < redFile.height / 2 → 0 < redFile.width / 2 →
        (RasterBand.load demoFs "red" 2).map Grid.shape =
          some (redFile.height / 2, redFile.width / 2)) ∧
      (¬(0 < redFile.height / 2 ∧ 0 < redFile.width / 2) →
        (RasterBand.load demoFs "red" 2).map Grid.shape =
          some (redFile.height, redFile.width))) :=
  ⟨rfl, load_shape demoFs "red" redFile rfl 2⟩

/-! ## C1: the NDVI pixel formula -/

/-- C1: on every pair of successfully loaded grids, after shape
reconciliation, every pixel of the returned grid is
`clip((nir - red) / denom, -1, 1)` where `denom` is `nir + red` with exact
zeros replaced by `1e-6` (see `fixZero`). -/
theorem ndvi_pixel_formula (fs : Fs) (red_path nir_path : String)
    (red nir : Grid)
    (hr : RasterBand.load fs red_path 1 = some red)
    (hn : RasterBand.load fs nir_path 1 = some nir) :
    ∃ out b, NDVIProcessor.compute_ndvi fs red_path nir_path =
        (some out, some b) ∧
      out.rows = (reconcile red nir).2.rows ∧
      out.cols = (reconcile red nir).2.cols ∧
      ∀ i j, i < out.rows → j < out.cols →
        out.pix i j =
          Val.clip (-1) 1
            (Val.div
              (Val.sub ((reconcile red nir).2.pix i j)
                ((reconcile red nir).1.pix i j))
              (fixZero (Val.add ((reconcile red nir).2.pix i j)
                ((reconcile red nir).1.pix i j)))) := by
  obtain ⟨fr, hfr, hr'⟩ := load_open hr
  obtain ⟨fn, hfn, hn'⟩ := load_open hn
  subst hr'
  subst hn'
  exact ⟨ndviOf (loadGrid fr 1) (loadGrid fn 1), fr.bounds,
    compute_ndvi_some fs red_path nir_path fr fn hfr hfn, rfl, rfl,
    fun i j _ _ => rfl⟩

/-- Witness for C1 at the constant 2×2 demonstration rasters. -/
theorem ndvi_pixel_formula_witness :
    RasterBand.load demoFs "red" 1 = some (loadGrid redFile 1) ∧
    RasterBand.load demoFs "nir" 1 = some (loadGrid nirFile 1) ∧
    (∃ out b, NDVIProcessor.compute_ndvi demoFs "red" "nir" =
        (some out, some b) ∧
      out.rows = (reconcile (loadGrid redFile 1) (loadGrid nirFile 1)).2.rows ∧
      out.cols = (reconcile (loadGrid redFile 1) (loadGrid nirFile 1)).2.cols ∧
      ∀ i j, i < out.rows → j < out.cols →
        out.pix i j =
          Val.clip (-1) 1
            (Val.div
              (Val.sub ((reconcile (loadGrid redFile 1) (loadGrid nirFile 1)).2.pix i j)
                ((reconcile (loadGrid redFile 1) (loadGrid nirFile 1)).1.pix i j))
              (fixZero (Val.add
                ((reconcile (loadGrid redFile 1) (loadGrid nirFile 1)).2.pix i j)
                ((reconcile (loadGrid redFile 1) (loadGrid nirFile 1)).1.pix i j))))) :=
  ⟨rfl, rfl, ndvi_pixel_formula demoFs "red" "nir" (loadGrid redFile 1)
    (loadGrid nirFile 1) rfl rfl⟩

/-! ## C4: shape reconciliation takes the element-wise maximum -/

lemma reconcile_of_ne (red nir : Grid) (hne : red.shape ≠ nir.shape) :
    reconcile red nir =
      (cv2resize red (max red.cols nir.cols) (max red.rows nir.rows),
       cv2resize nir (max red.cols nir.cols) (max red.rows nir.rows)) := by
  unfold reconcile
  rw [if_pos hne]

/-- C4: when the two loaded grids differ in shape, both are resized to the
element-wise maximum of the shapes and the returned grid has that shape. -/
theorem ndvi_shape_max (fs : Fs) (red_path nir_path : String) (red nir : Grid)
    (hr : RasterBand.load fs red_path 1 = some red)
    (hn : RasterBand.load fs nir_path 1 = some nir)
    (hne : red.shape ≠ nir.shape) :
    (reconcile red nir).1.shape = (max red.rows nir.rows, max red.cols nir.cols) ∧
    (reconcile red nir).2.shape = (max red.rows nir.rows, max red.cols nir.cols) ∧
    ∃ out b, NDVIProcessor.compute_ndvi fs red_path nir_path =
        (some out, some b) ∧
      out.shape = (max red.rows nir.rows, max red.cols nir.cols) := by
  obtain ⟨fr, hfr, hr'⟩ := load_open hr
  obtain ⟨fn, hfn, hn'⟩ := load_open hn
  refine ⟨by rw [reconcile_of_ne red nir hne]; rfl,
    by rw [reconcile_of_ne red nir hne]; rfl,
    ndviOf red nir, fr.bounds, ?_, ?_⟩
  · rw [hr', hn'] at *
    exact compute_ndvi_some fs red_path nir_path fr fn hfr hfn
  · show ((reconcile red nir).2.rows, (reconcile red nir).2.cols) = _
    rw [reconcile_of_ne red nir hne]
    rfl

/-- Witness for C4: a 1×10 and a 3×2 raster reconcile to shape `(3, 10)`. -/
theorem ndvi_shape_max_witness :
    RasterBand.load demoFs "wide" 1 = some (loadGrid wideFile 1) ∧
    RasterBand.load demoFs "tall" 1 = some (loadGrid tallFile 1) ∧
    (loadGrid wideFile 1).shape ≠ (loadGrid tallFile 1).shape ∧
    ((reconcile (loadGrid wideFile 1) (loadGrid tallFile 1)).1.shape =
        (max (loadGrid wideFile 1).rows (loadGrid tallFile 1).rows,
         max (loadGrid wideFile 1).cols (loadGrid tallFile 1).cols) ∧
      (reconcile (loadGrid wideFile 1) (loadGrid tallFile 1)).2.shape =
        (max (loadGrid wideFile 1).rows (loadGrid tallFile 1).rows,
         max (loadGrid wideFile 1).cols (loadGrid tallFile 1).cols) ∧
      ∃ out b, NDVIProcessor.compute_ndvi demoFs "wide" "tall" =
          (some out, some b) ∧
        out.shape =
          (max (loadGrid wideFile 1).rows (loadGrid tallFile 1).rows,
           max (loadGrid wideFile 1).cols (loadGrid tallFile 1).cols)) :=
  ⟨rfl, rfl, by decide,
    ndvi_shape_max demoFs "wide" "tall" (loadGrid wideFile 1)
      (loadGrid tallFile 1) rfl rfl (by decide)⟩

/-! ## Pixel-level helper lemmas -/

lemma samp_lt {i h r : Nat} (hi : i < h) (hr : 0 < r) : i * r / h < r := by
  have hh : 0 < h := Nat.lt_of_le_of_lt (Nat.zero_le i) hi
  rw [Nat.div_lt_iff_lt_mul hh]
  calc i * r < h * r := mul_lt_mul_of_pos_right hi hr
    _ = r * h := Nat.mul_comm h r

lemma reconcile_dims (red nir : Grid) :
    (reconcile red nir).1.rows = max red.rows nir.rows ∧
    (reconcile red nir).1.cols = max red.cols nir.cols ∧
    (reconcile red nir).2.rows = max red.rows nir.rows ∧
    (reconcile red nir).2.cols = max red.cols nir.cols := by
  unfold reconcile
  split
  · exact ⟨rfl, rfl, rfl, rfl⟩
  · rename_i hc
    rw [not_not] at hc
    have h1 : red.rows = nir.rows := congrArg Prod.fst hc
    have h2 : red.cols = nir.cols := congrArg Prod.snd hc
    rw [← h1, ← h2, max_self, max_self]
    exact ⟨rfl, rfl, rfl, rfl⟩

lemma reconcile_pix (red nir : Grid)
    (hrr : 0 < red.rows) (hrc : 0 < red.cols)
    (hnr : 0 < nir.rows) (hnc : 0 < nir.cols) (i j : Nat)
    (hi : i < max red.rows nir.rows) (hj : j < max red.cols nir.cols) :
    (∃ a b, a < red.rows ∧ b < red.cols ∧
      (reconcile red nir).1.pix i j = red.pix a b) ∧
    (∃ a b, a < nir.rows ∧ b < nir.cols ∧
      (reconcile red nir).2.pix i j = nir.pix a b) := by
  unfold reconcile
  split
  · exact ⟨⟨i * red.rows / max red.rows nir.rows,
        j * red.cols / max red.cols nir.cols,
        samp_lt hi hrr, samp_lt hj hrc, rfl⟩,
      ⟨i * nir.rows / max red.rows nir.rows,
        j * nir.cols / max red.cols nir.cols,
        samp_lt hi hnr, samp_lt hj hnc, rfl⟩⟩
  · rename_i hc
    rw [not_not] at hc
    have h1 : red.rows = nir.rows := congrArg Prod.fst hc
    have h2 : red.cols = nir.cols := congrArg Prod.snd hc
    have hi' : i < red.rows := by rw [← h1, max_self] at hi; exact hi
    have hj' : j < red.cols := by rw [← h2, max_self] at hj; exact hj
    exact ⟨⟨i, j, hi', hj', rfl⟩, ⟨i, j, h1 ▸ hi', h2 ▸ hj', rfl⟩⟩

lemma isFinite_exists {v : Val} (h : v.isFinite = true) : ∃ q, v = .fin q := by
  cases v with
  | fin q => exact ⟨q, rfl⟩
  | nan => exact absurd h (by simp [Val.isFinite])

lemma fixZero_fin (s : ℚ) : ∃ d, fixZero (Val.fin s) = Val.fin d ∧ d ≠ 0 := by
  unfold fixZero
  by_cases h : s = 0
  · subst h
    exact ⟨1 / 1000000, if_pos rfl, by norm_num⟩
  · refine ⟨s, if_neg ?_, h⟩
    intro hh
    injection hh with hh'
    exact h hh'

lemma div_fin (a d : ℚ) (hd : d ≠ 0) :
    Val.div (.fin a) (.fin d) = .fin (a / d) := by
  show (if d = 0 then Val.nan else Val.fin (a / d)) = _
  rw [if_neg hd]

lemma clip_fin (q : ℚ) : Val.clip (-1) 1 (.fin q) = .fin (max (-1) (min q 1)) := rfl

lemma ndvi_pix_bounds (x y : ℚ) :
    ∃ q, Val.clip (-1) 1
        (Val.div (Val.sub (.fin x) (.fin y))
          (fixZero (Val.add (.fin x) (.fin y)))) = .fin q ∧
      -1 ≤ q ∧ q ≤ 1 := by
  obtain ⟨d, hd, hd0⟩ := fixZero_fin (x + y)
  have hadd : Val.add (.fin x) (.fin y) = .fin (x + y) := rfl
  have hsub : Val.sub (.fin x) (.fin y) = .fin (x - y) := rfl
  rw [hadd, hsub, hd, div_fin _ _ hd0, clip_fin]
  exact ⟨_, rfl, le_max_left _ _, max_le (by norm_num) (min_le_right _ _)⟩

/-! ## C2: every NDVI result element lies in [-1, 1] -/

/-- C2: for inputs whose loaded grids are nonempty and hold only finite
values, every element of the grid returned by `compute_ndvi` is a finite
value in the closed interval `[-1, 1]`. -/
theorem ndvi_range_clipped (fs : Fs) (red_path nir_path : String)
    (red nir : Grid)
    (hr : RasterBand.load fs red_path 1 = some red)
    (hn : RasterBand.load fs nir_path 1 = some nir)
    (hrr : 0 < red.rows) (hrc : 0 < red.cols)
    (hnr : 0 < nir.rows) (hnc : 0 < nir.cols)
    (hrf : ∀ i j, i < red.rows → j < red.cols → (red.pix i j).isFinite = true)
    (hnf : ∀ i j, i < nir.rows → j < nir.cols → (nir.pix i j).isFinite = true) :
    ∃ out b, NDVIProcessor.compute_ndvi fs red_path nir_path =
        (some out, some b) ∧
      ∀ i j, i < out.rows → j < out.cols →
        ∃ q, out.pix i j = .fin q ∧ -1 ≤ q ∧ q ≤ 1 := by
  obtain ⟨fr, hfr, hr'⟩ := load_open hr
  obtain ⟨fn, hfn, hn'⟩ := load_open hn
  refine ⟨ndviOf red nir, fr.bounds, ?_, ?_⟩
  · rw [hr', hn']
    exact compute_ndvi_some fs red_path nir_path fr fn hfr hfn
  · intro i j hi hj
    have hi' : i < max red.rows nir.rows := by
      rw [← (reconcile_dims red nir).2.2.1]
      exact hi
    have hj' : j < max red.cols nir.cols := by
      rw [← (reconcile_dims red nir).2.2.2]
      exact hj
    obtain ⟨⟨a1, b1, ha1, hb1, hp1⟩, ⟨a2, b2, ha2, hb2, hp2⟩⟩ :=
      reconcile_pix red nir hrr hrc hnr hnc i j hi' hj'
    obtain ⟨y, hy⟩ := isFinite_exists (hrf a1 b1 ha1 hb1)
    obtain ⟨x, hx⟩ := isFinite_exists (hnf a2 b2 ha2 hb2)
    have hout : (ndviOf red nir).pix i j =
        Val.clip (-1) 1
          (Val.div (Val.sub ((reconcile red nir).2.pix i j)
              ((reconcile red nir).1.pix i j))
            (fixZero (Val.add ((reconcile red nir).2.pix i j)
              ((reconcile red nir).1.pix i j)))) := rfl
    rw [hout, hp1, hp2, hx, hy]
    exact ndvi_pix_bounds x y

/-- Witness for C2 at the finite 2×2 demonstration rasters. -/
theorem ndvi_range_clipped_witness :
    RasterBand.load demoFs "red" 1 = some (loadGrid redFile 1) ∧
    RasterBand.load demoFs "nir" 1 = some (loadGrid nirFile 1) ∧
    0 < (loadGrid redFile 1).rows ∧ 0 < (loadGrid redFile 1).cols ∧
    0 < (loadGrid nirFile 1).rows ∧ 0 < (loadGrid nirFile 1).cols ∧
    (∃ out b, NDVIProcessor.compute_ndvi demoFs "red" "nir" =
        (some out, some b) ∧
      ∀ i j, i < out.rows → j < out.cols →
        ∃ q, out.pix i j = .fin q ∧ -1 ≤ q ∧ q ≤ 1) :=
  ⟨rfl, rfl, by decide, by decide, by decide, by decide,
    ndvi_range_clipped demoFs "red" "nir" (loadGrid redFile 1)
      (loadGrid nirFile 1) rfl rfl (by decide) (by decide) (by decide)
      (by decide) (fun _ _ _ _ => rfl) (fun _ _ _ _ => rfl)⟩

/-! ## C8: identical inputs compute to a grid of exact zeros -/

/-- C8: feeding the same raster file as both RED and NIR (a finite grid)
yields a grid of all zeros — here exactly zero, since over exact arithmetic
`(v - v) / denom = 0` and clipping fixes 0. -/
theorem ndvi_identical_inputs_zero (fs : Fs) (path : String) (g : Grid)
    (h : RasterBand.load fs path 1 = some g)
    (hf : ∀ i j, i < g.rows → j < g.cols → (g.pix i j).isFinite = true) :
    ∃ out b, NDVIProcessor.compute_ndvi fs path path = (some out, some b) ∧
      out.rows = g.rows ∧ out.cols = g.cols ∧
      ∀ i j, i < out.rows → j < out.cols → out.pix i j = .fin 0 := by
  obtain ⟨f, hfp, hg⟩ := load_open h
  have hrec : reconcile g g = (g, g) := by
    unfold reconcile
    rw [if_neg (by simp)]
  have hrows : (ndviOf g g).rows = g.rows := by
    show (reconcile g g).2.rows = g.rows
    rw [hrec]
  have hcols : (ndviOf g g).cols = g.cols := by
    show (reconcile g g).2.cols = g.cols
    rw [hrec]
  refine ⟨ndviOf g g, f.bounds, ?_, hrows, hcols, ?_⟩
  · rw [hg]
    exact compute_ndvi_some fs path path f f hfp hfp
  · intro i j hi hj
    have hi' : i < g.rows := hrows ▸ hi
    have hj' : j < g.cols := hcols ▸ hj
    obtain ⟨x, hx⟩ := isFinite_exists (hf i j hi' hj')
    have hp1 : (reconcile g g).1.pix i j = g.pix i j := by rw [hrec]
    have hp2 : (reconcile g g).2.pix i j = g.pix i j := by rw [hrec]
    have hout : (ndviOf g g).pix i j =
        Val.clip (-1) 1
          (Val.div (Val.sub ((reconcile g g).2.pix i j)
              ((reconcile g g).1.pix i j))
            (fixZero (Val.add ((reconcile g g).2.pix i j)
              ((reconcile g g).1.pix i j)))) := rfl
    rw [hout, hp1, hp2, hx]
    obtain ⟨d, hd, hd0⟩ := fixZero_fin (x + x)
    have hadd : Val.add (.fin x) (.fin x) = .fin (x + x) := rfl
    have hsub : Val.sub (.fin x) (.fin x) = .fin 0 := by
      show Val.fin (x - x) = Val.fin 0
      rw [sub_self]
    rw [hadd, hsub, hd, div_fin 0 d hd0, clip_fin]
    norm_num

/-- Witness for C8: the constant 2×2 raster used as both inputs. -/
theorem ndvi_identical_inputs_zero_witness :
    RasterBand.load demoFs "red" 1 = some (loadGrid redFile 1) ∧
    (∃ out b, NDVIProcessor.compute_ndvi demoFs "red" "red" =
        (some out, some b) ∧
      out.rows = (loadGrid redFile 1).rows ∧
      out.cols = (loadGrid redFile 1).cols ∧
      ∀ i j, i < out.rows → j < out.cols → out.pix i j = .fin 0) :=
  ⟨rfl, ndvi_identical_inputs_zero demoFs "red" (loadGrid redFile 1) rfl
    (fun _ _ _ _ => rfl)⟩

/-! ## C6: how the percentile threshold is computed -/

lemma nan_not_mem_flatten {g : Grid}
    (hf : ∀ i j, i < g.rows → j < g.cols → (g.pix i j).isFinite = true) :
    Val.nan ∉ g.flatten := by
  intro hmem
  unfold Grid.flatten at hmem
  rw [List.mem_flatMap] at hmem
  obtain ⟨i, hi, hmem2⟩ := hmem
  rw [List.mem_map] at hmem2
  obtain ⟨j, hj, hpix⟩ := hmem2
  have hfin := hf i j (List.mem_range.mp hi) (List.mem_range.mp hj)
  rw [hpix] at hfin
  exact absurd hfin (by simp [Val.isFinite])

/-- Counterexample to C6 as stated: on the raster `[NaN, 0, 10]` the code's
threshold is `np.percentile` over all values, which is NaN, so every
pixel — including the pixel of value 0 — is classified 0; but that pixel is
strictly below the 20th percentile of the finite values (which is 2), so a
threshold computed over the finite values would classify it 1. -/
theorem percentile_threshold_cex :
    ((Sentinel1FloodDetector.detect demoFs "nan" none 20).1.map
        fun m => m.pix 0 1) = some 0 ∧
    ((RasterBand.load demoFs "nan" 1).map fun g =>
        Val.lt (g.pix 0 1) (finitePercentile g.flatten 20)) = some true := by
  constructor
  · decide
  · have hload : RasterBand.load demoFs "nan" 1 = some (loadGrid nanFile 1) := rfl
    rw [hload]
    show some (Val.lt ((loadGrid nanFile 1).pix 0 1)
      (finitePercentile (loadGrid nanFile 1).flatten 20)) = some true
    have hfl : (loadGrid nanFile 1).flatten = [Val.nan, .fin 0, .fin 10] := by
      decide
    have hpix : (loadGrid nanFile 1).pix 0 1 = .fin 0 := by decide
    rw [hfl, hpix]
    have h1 : (([Val.nan, .fin 0, .fin 10].filterMap Val.toQ)) = [0, 10] := by
      simp [Val.toQ, List.filterMap]
    have h2 : sortQ [0, 10] = [0, 10] := by
      simp [sortQ, insertSorted]
    have hf5 : (⌊((1 : ℚ) / 5)⌋₊ : Nat) = 0 := by
      rw [Nat.floor_eq_zero]
      norm_num
    have hfp : finitePercentile [Val.nan, .fin 0, .fin 10] 20 = .fin 2 := by
      unfold finitePercentile
      rw [h1, h2]
      unfold quantileSorted
      simp only [List.length_cons, List.length_nil]
      norm_num [hf5]
    rw [hfp]
    decide

/-- C6 (amended): with no explicit threshold, `detect` thresholds at
`np.percentile` of all grid values; whenever the loaded grid holds only
finite values this equals the given percentile of the finite values, so the
classification threshold is the finite-values percentile in that case. -/
theorem percentile_threshold_all_values (fs : Fs) (path : String)
    (data : Grid) (q : ℚ)
    (h : RasterBand.load fs path 1 = some data)
    (hf : ∀ i j, i < data.rows → j < data.cols → (data.pix i j).isFinite = true) :
    ∃ b, Sentinel1FloodDetector.detect fs path none q =
      (some (thresholdMask data (finitePercentile data.flatten q)), some b) := by
  obtain ⟨src, hsrc, hdata⟩ := load_open h
  subst hdata
  refine ⟨src.bounds, ?_⟩
  rw [detect_some fs path src none q hsrc]
  have hnp : npPercentile (loadGrid src 1).flatten q =
      finitePercentile (loadGrid src 1).flatten q := by
    unfold npPercentile
    rw [if_neg (nan_not_mem_flatten hf)]
  show (some (thresholdMask (loadGrid src 1)
      (npPercentile (loadGrid src 1).flatten q)), some src.bounds) = _
  rw [hnp]

/-- Witness for C6 (amended) at the finite 2×2 demonstration raster. -/
theorem percentile_threshold_all_values_witness :
    RasterBand.load demoFs "red" 1 = some (loadGrid redFile 1) ∧
    (∃ b, Sentinel1FloodDetector.detect demoFs "red" none 20 =
      (some (thresholdMask (loadGrid redFile 1)
        (finitePercentile (loadGrid redFile 1).flatten 20)), some b)) :=
  ⟨rfl, percentile_threshold_all_values demoFs "red" (loadGrid redFile 1) 20
    rfl (fun _ _ _ _ => rfl)⟩

end SafeRo
